import Mathlib

/-!
# Verification of the `read_until` input decorator

A shallow embedding of `lib/input/read_until.go`.  The worker goroutine
`(*ReadUntil).loop` is modelled as a fuel-indexed interpreter `loopRun`
producing a trace of observable channel events.  Sources of
nondeterminism are made explicit inputs:

* `restarts k` — the result of the `k`-th runtime call to `New` (the
  producer rebuilt on exhaustion when `restart_input` is true); `none`
  models a construction error.
* `resps k` — the `Response` the downstream consumer writes to the
  `k`-th intercept channel (`tmpRes` in the source).
* `sched` — one boolean per shutdown-observable point (the loop-head
  load of `running`, and every `select` racing against `closeChan`);
  `true` means the shutdown signal is observed there.  The empty list
  (default `false`) is the execution in which `CloseAsync` is never
  called.

A live producer is modelled by the list of transactions still to be
read from its channel; the empty list is the closed channel.  Fuel
bounds the number of `runLoop` iterations; `none` means the execution
was not followed to completion within the fuel.
-/

/-- A downstream acknowledgement: `err = none` is an ack, `err = some e`
a nack carrying the error `e` (`types.Response` restricted to what the
decorator reads, namely `res.Error()`). -/
structure Response where
  err : Option String
deriving DecidableEq, Repr

/-- Identity of an acknowledgement channel: `orig n` is the response
channel carried by the `n`-th transaction the wrapped producer emitted;
`fresh k` is the `k`-th intercept channel `tmpRes` the decorator makes. -/
inductive ChanId where
  | orig (n : Nat)
  | fresh (k : Nat)
deriving DecidableEq, Repr

/-- A `types.Transaction` as received from the wrapped producer: a
payload together with the identity of its acknowledgement channel. -/
structure Tran (α : Type) where
  payload : α
  ack : Nat
deriving DecidableEq, Repr

/-- Observable events of the worker, in program order. -/
inductive Event (α : Type) where
  /-- a transaction was received from the wrapped producer's channel -/
  | received (p : α)
  /-- `r.cond.Check` was evaluated on payload `p` -/
  | checked (p : α)
  /-- a transaction with payload `p` and acknowledgement channel `c`
  was sent on the decorator's `transactions` channel -/
  | emitted (p : α) (c : ChanId)
  /-- response `r` was written to acknowledgement channel `c` -/
  | responded (c : ChanId) (r : Response)
  /-- a replacement producer was constructed successfully -/
  | restartOk
  /-- constructing a replacement producer failed -/
  | restartFail
  /-- the wrapped producer's channel was observed closed -/
  | inputClosed
  /-- `close(r.transactions)` ran -/
  | closedTransactions
  /-- `close(r.closedChan)` ran -/
  | closedClosedChan
deriving DecidableEq, Repr

/-- The deferred cleanup of `loop`: it closes `r.transactions` and then
`r.closedChan`, in that order, on every exit path. -/
def cleanupEvents {α : Type} : List (Event α) :=
  [Event.closedTransactions, Event.closedClosedChan]

/-- The three events produced when a transaction fails the condition
and is forwarded unchanged. -/
def fwdEvents {α : Type} (t : Tran α) : List (Event α) :=
  [Event.received t.payload, Event.checked t.payload,
   Event.emitted t.payload (ChanId.orig t.ack)]

mutual

/-- One `runLoop` iteration of `(*ReadUntil).loop` once a live producer
`p` is in hand: receive (or observe closure), check the condition,
forward, and for a final candidate run the interception sequence.
`fuel` bounds the remaining iterations reached through `continue`. -/
def loopBody {α : Type} (cond : α → Bool) (restartConf : Bool)
    (restarts : Nat → Option (List (Tran α))) (resps : Nat → Response)
    (fuel : Nat) (p : List (Tran α)) (rk ik : Nat) (s : List Bool) :
    Option (List (Event α)) :=
  -- select { tran, open = <-r.wrapped.TransactionChan() | <-r.closeChan }
  if s.headD false then some cleanupEvents
  else
    let s2 := s.tail
    match p with
    | [] =>
      -- !open: r.wrapped = nil; continue runLoop
      (loopRun cond restartConf restarts resps fuel none rk ik s2).map
        (fun t => Event.inputClosed :: t)
    | tran :: rest =>
      let pre : List (Event α) :=
        [Event.received tran.payload, Event.checked tran.payload]
      if ! cond tran.payload then
        -- select { r.transactions <- tran | <-r.closeChan }
        if s2.headD false then some (pre ++ cleanupEvents)
        else
          (loopRun cond restartConf restarts resps fuel (some rest)
              rk ik s2.tail).map
            (fun t =>
              pre ++ Event.emitted tran.payload (ChanId.orig tran.ack) :: t)
      else
        -- tmpRes := make(chan types.Response)
        -- select { r.transactions <- NewTransaction(tran.Payload, tmpRes) | close }
        if s2.headD false then some (pre ++ cleanupEvents)
        else
          let s3 := s2.tail
          let pre2 := pre ++ [Event.emitted tran.payload (ChanId.fresh ik)]
          -- select { res, open = <-tmpRes | <-r.closeChan }
          if s3.headD false then some (pre2 ++ cleanupEvents)
          else
            let s4 := s3.tail
            let res := resps ik
            -- select { tran.ResponseChan <- res | <-r.closeChan }
            if s4.headD false then some (pre2 ++ cleanupEvents)
            else
              let s5 := s4.tail
              let pre3 := pre2 ++ [Event.responded (ChanId.orig tran.ack) res]
              -- streamEnds := res.Error() == nil
              if res.err.isNone then some (pre3 ++ cleanupEvents)
              else
                (loopRun cond restartConf restarts resps fuel
                    (some rest) rk (ik + 1) s5).map
                  (fun t => pre3 ++ t)
termination_by (fuel, 1)

/-- The interpreter of `(*ReadUntil).loop`.  Arguments of the recursion:
fuel, the current producer (`r.wrapped`, `none` when nil), the index of
the next runtime producer construction, the index of the next intercept
channel, and the shutdown schedule. -/
def loopRun {α : Type} (cond : α → Bool) (restartConf : Bool)
    (restarts : Nat → Option (List (Tran α))) (resps : Nat → Response) :
    Nat → Option (List (Tran α)) → Nat → Nat → List Bool →
    Option (List (Event α))
  | 0, _, _, _, _ => none
  | fuel + 1, wrapped, rk, ik, sched =>
    -- for atomic.LoadInt32(&r.running) == 1
    if sched.headD false then some cleanupEvents
    else
      let s1 := sched.tail
      match wrapped with
      | none =>
        if restartConf then
          -- r.wrapped, err = New(*r.conf.Input, ...)
          match restarts rk with
          | none => some (Event.restartFail :: cleanupEvents)
          | some p =>
            (loopBody cond restartConf restarts resps fuel p (rk + 1) ik
                s1).map
              (fun t => Event.restartOk :: t)
        else some cleanupEvents
      | some p => loopBody cond restartConf restarts resps fuel p rk ik s1
termination_by fuel _ _ _ _ => (fuel, 0)

end

/-- Payloads of the `received` events of a trace, in order. -/
def receivedOf {α : Type} (tr : List (Event α)) : List α :=
  tr.filterMap (fun e =>
    match e with
    | Event.received p => some p
    | _ => none)

/-- Payloads of the `checked` events of a trace, in order. -/
def checkedOf {α : Type} (tr : List (Event α)) : List α :=
  tr.filterMap (fun e =>
    match e with
    | Event.checked p => some p
    | _ => none)

/-- The `responded` events of a trace, in order. -/
def respondedOf {α : Type} (tr : List (Event α)) : List (ChanId × Response) :=
  tr.filterMap (fun e =>
    match e with
    | Event.responded c r => some (c, r)
    | _ => none)

/-! ## Lifecycle controller: `CloseAsync` / `WaitForClose` -/

/-- The shared lifecycle fields of a `ReadUntil` value: the atomic
`running` flag (an `int32`), and whether `closeChan` respectively
`closedChan` have been closed. -/
structure LifecycleState where
  running : Int
  closeChanClosed : Bool
  closedChanClosed : Bool
deriving DecidableEq, Repr

/-- The lifecycle fields as `NewReadUntil` initialises them: `running: 1`
and both channels open. -/
def initLifecycle : LifecycleState :=
  { running := 1, closeChanClosed := false, closedChanClosed := false }

/-- `(*ReadUntil).CloseAsync`: a compare-and-swap of `running` from 1 to
0; `close(r.closeChan)` runs only when the swap succeeds.  The boolean
reports whether this call closed `closeChan`. -/
def closeAsync (s : LifecycleState) : LifecycleState × Bool :=
  if s.running = 1 then
    ({ s with running := 0, closeChanClosed := true }, true)
  else (s, false)

/-- `n` successive calls to `CloseAsync`, counting how many of them
actually closed `closeChan`. -/
def closeAsyncN : Nat → LifecycleState → LifecycleState × Nat
  | 0, s => (s, 0)
  | n + 1, s =>
    let r := closeAsync s
    let r2 := closeAsyncN n r.1
    (r2.1, (if r.2 then 1 else 0) + r2.2)

/-- `types.ErrTimeout`, the only error `WaitForClose` can return. -/
inductive BenthosErr where
  | timeout
deriving DecidableEq, Repr

/-- `(*ReadUntil).WaitForClose`: a `select` between `r.closedChan` and
`time.After(timeout)`.  `confirmedBeforeDeadline` resolves the race when
`closedChan` is not yet closed at the call: it says whether the close
confirmation arrives before the deadline elapses.  The call returns the
state unchanged, success (`none`) when the confirmation wins, and
`types.ErrTimeout` when the deadline wins. -/
def waitForClose (s : LifecycleState) (confirmedBeforeDeadline : Bool) :
    LifecycleState × Option BenthosErr :=
  (s, if s.closedChanClosed || confirmedBeforeDeadline then none
      else some BenthosErr.timeout)

/-! ## Construction: `NewReadUntil` -/

/-- `NewReadUntil`: fails when `conf.ReadUntil.Input` is nil, when the
wrapped input's constructor fails, or when the condition's constructor
fails; otherwise the decorator is built.  `newInput` models
`input.New` on the wrapped config and `newCond` models
`condition.New`, each returning either success or an error message. -/
def newReadUntil {γ : Type} (inputConf : Option γ)
    (newInput : γ → Except String Unit) (newCond : Except String Unit) :
    Except String Unit :=
  match inputConf with
  | none => Except.error "cannot create read_until input without a child"
  | some c =>
    match newInput c with
    | Except.error e => Except.error ("failed to create input: " ++ e)
    | Except.ok _ =>
      match newCond with
      | Except.error e => Except.error ("failed to create condition: " ++ e)
      | Except.ok _ => Except.ok ()

/-! ## Configuration marshalling -/

/-- A fragment of JSON/YAML values, sufficient for the config schema. -/
inductive Json where
  | null
  | bool (b : Bool)
  | str (s : String)
  | obj (fields : List (String × Json))

/-- `ReadUntilConfig`: the wrapped input config (a nil-able pointer,
kept abstract as its serialized form), the `restart_input` flag and the
condition config. -/
structure ReadUntilConfig where
  input : Option Json
  restart : Bool
  condition : Json

/-- `NewReadUntilConfig`: nil input, `restart_input` false, default
condition config. -/
def newReadUntilConfig (condDefault : Json) : ReadUntilConfig :=
  { input := none, restart := false, condition := condDefault }

/-- `ReadUntilConfig.MarshalJSON` / `MarshalYAML`: both serialise via
`dummyReadUntilConfig`, whose only fields are `input` and `condition`
(there is no `restart_input` field), and replace a nil input with the
empty object. -/
def marshalReadUntilConfig (r : ReadUntilConfig) : List (String × Json) :=
  [("input", match r.input with
             | none => Json.obj []
             | some c => c),
   ("condition", r.condition)]

/-- `json.Unmarshal` into a fresh `ReadUntilConfig`, following the
struct tags on `ReadUntilConfig`: `input` fills the `Input` pointer
(absent key leaves it nil), `restart_input` fills `Restart` (absent or
non-boolean key leaves the zero value `false`), `condition` fills
`Condition` (absent key leaves the zero config, modelled as the empty
object). -/
def unmarshalReadUntilConfig (fields : List (String × Json)) :
    ReadUntilConfig :=
  { input := fields.lookup "input",
    restart := match fields.lookup "restart_input" with
               | some (Json.bool b) => b
               | _ => false,
    condition := (fields.lookup "condition").getD (Json.obj []) }

/-! ## Step lemmas for the worker loop -/

/-- Accepting step: a transaction passing the condition is forwarded on
a fresh intercept channel; an error-free response is relayed to the
original channel and the loop returns (running only its cleanup). -/
theorem loopRun_accept_step {α : Type} (cond : α → Bool)
    (restartConf : Bool) (restarts : Nat → Option (List (Tran α)))
    (resps : Nat → Response) (fuel rk ik : Nat) (tran : Tran α)
    (rest : List (Tran α))
    (hcond : cond tran.payload = true)
    (hok : (resps ik).err = none) :
    loopRun cond restartConf restarts resps (fuel + 1) (some (tran :: rest))
        rk ik []
      = some ([Event.received tran.payload, Event.checked tran.payload,
               Event.emitted tran.payload (ChanId.fresh ik),
               Event.responded (ChanId.orig tran.ack) (resps ik)]
              ++ cleanupEvents) := by
  simp [loopRun, loopBody, hcond, hok, cleanupEvents]

/-- Rejecting step: a transaction passing the condition whose relayed
response carries an error leaves the loop running on the rest of the
same producer, with the intercept-channel index advanced. -/
theorem loopRun_reject_step {α : Type} (cond : α → Bool)
    (restartConf : Bool) (restarts : Nat → Option (List (Tran α)))
    (resps : Nat → Response) (fuel rk ik : Nat) (tran : Tran α)
    (rest : List (Tran α)) (e : String)
    (hcond : cond tran.payload = true)
    (herr : (resps ik).err = some e) :
    loopRun cond restartConf restarts resps (fuel + 1) (some (tran :: rest))
        rk ik []
      = Option.map
          (fun t => [Event.received tran.payload, Event.checked tran.payload,
               Event.emitted tran.payload (ChanId.fresh ik),
               Event.responded (ChanId.orig tran.ack) (resps ik)] ++ t)
          (loopRun cond restartConf restarts resps fuel (some rest)
            rk (ik + 1) []) := by
  simp [loopRun, loopBody, hcond, herr]

/-- Skipping steps: a block of transactions all failing the condition is
forwarded unchanged, one fuel unit each, leaving the loop on the rest. -/
theorem loopRun_skip_rejected {α : Type} (cond : α → Bool) (rc : Bool)
    (restarts : Nat → Option (List (Tran α))) (resps : Nat → Response)
    (pre : List (Tran α)) (h : ∀ t ∈ pre, cond t.payload = false) :
    ∀ (n rk ik : Nat) (rest : List (Tran α)),
    loopRun cond rc restarts resps (pre.length + n) (some (pre ++ rest))
        rk ik []
      = Option.map (fun tr => pre.flatMap fwdEvents ++ tr)
          (loopRun cond rc restarts resps n (some rest) rk ik []) := by
  induction pre with
  | nil =>
    intro n rk ik rest
    simp
  | cons t pre ih =>
    intro n rk ik rest
    have ht : cond t.payload = false := h t (by simp)
    have ihh := ih (fun x hx => h x (by simp [hx])) n rk ik rest
    have hfuel : (t :: pre).length + n = (pre.length + n) + 1 := by
      simp [Nat.add_right_comm]
    rw [hfuel, List.cons_append]
    simp [loopRun, loopBody, ht, ihh, Option.map_map, Function.comp,
      fwdEvents, List.append_assoc]
    rfl

/-- With `restart_input` false, once the producer channel is observed
closed the loop exits and runs its cleanup. -/
theorem loopRun_exhaust_stop {α : Type} (cond : α → Bool)
    (restarts : Nat → Option (List (Tran α))) (resps : Nat → Response)
    (n rk ik : Nat) :
    loopRun cond false restarts resps (n + 2) (some []) rk ik []
      = some (Event.inputClosed :: cleanupEvents) := by
  simp [loopRun, loopBody]

/-- With `restart_input` true and no current producer, a failed producer
construction ends the loop immediately with only its cleanup. -/
theorem loopRun_restart_fail {α : Type} (cond : α → Bool)
    (restarts : Nat → Option (List (Tran α))) (resps : Nat → Response)
    (n rk ik : Nat) (hfail : restarts rk = none) :
    loopRun cond true restarts resps (n + 1) none rk ik []
      = some (Event.restartFail :: cleanupEvents) := by
  simp [loopRun, hfail]

/-- With `restart_input` true and no current producer, a successful
construction installs exactly one new producer and the loop continues
with it, the construction index advanced by one. -/
theorem loopRun_restart_ok {α : Type} (cond : α → Bool)
    (restarts : Nat → Option (List (Tran α))) (resps : Nat → Response)
    (n rk ik : Nat) (p : List (Tran α)) (hp : restarts rk = some p) :
    loopRun cond true restarts resps (n + 1) none rk ik []
      = Option.map (fun tr => Event.restartOk :: tr)
          (loopRun cond true restarts resps (n + 1) (some p) (rk + 1) ik []) := by
  simp only [loopRun, hp]
  simp

/-- Observing the producer channel closed clears the current producer
and re-enters the loop. -/
theorem loopRun_observe_closed {α : Type} (cond : α → Bool) (rc : Bool)
    (restarts : Nat → Option (List (Tran α))) (resps : Nat → Response)
    (n rk ik : Nat) :
    loopRun cond rc restarts resps (n + 1) (some []) rk ik []
      = Option.map (fun tr => Event.inputClosed :: tr)
          (loopRun cond rc restarts resps n none rk ik []) := by
  simp [loopRun, loopBody]

theorem checkedOf_append {α : Type} (a b : List (Event α)) :
    checkedOf (a ++ b) = checkedOf a ++ checkedOf b :=
  List.filterMap_append ..

theorem receivedOf_append {α : Type} (a b : List (Event α)) :
    receivedOf (a ++ b) = receivedOf a ++ receivedOf b :=
  List.filterMap_append ..

theorem trace_shape_terminal {α : Type} (q : List (Event α))
    (hq1 : checkedOf q = receivedOf q)
    (hq2 : ∀ e ∈ q, e ≠ Event.closedTransactions ∧ e ≠ Event.closedClosedChan) :
    checkedOf (q ++ cleanupEvents) = receivedOf (q ++ cleanupEvents)
    ∧ ∃ pre, q ++ cleanupEvents = pre ++ cleanupEvents ∧
        ∀ e ∈ pre, e ≠ Event.closedTransactions ∧ e ≠ Event.closedClosedChan :=
  ⟨by rw [checkedOf_append, receivedOf_append, hq1]; rfl, q, rfl, hq2⟩

theorem trace_shape_extend {α : Type} (q t : List (Event α))
    (hq1 : checkedOf q = receivedOf q)
    (hq2 : ∀ e ∈ q, e ≠ Event.closedTransactions ∧ e ≠ Event.closedClosedChan)
    (ht : checkedOf t = receivedOf t
      ∧ ∃ pre, t = pre ++ cleanupEvents ∧
          ∀ e ∈ pre, e ≠ Event.closedTransactions ∧ e ≠ Event.closedClosedChan) :
    checkedOf (q ++ t) = receivedOf (q ++ t)
    ∧ ∃ pre, q ++ t = pre ++ cleanupEvents ∧
        ∀ e ∈ pre, e ≠ Event.closedTransactions ∧ e ≠ Event.closedClosedChan := by
  obtain ⟨ht1, pre, rfl, hpre⟩ := ht
  refine ⟨by rw [checkedOf_append, receivedOf_append, hq1, ht1],
    q ++ pre, by simp, ?_⟩
  intro e he
  rcases List.mem_append.1 he with hh | hh
  · exact hq2 e hh
  · exact hpre e hh

theorem loopBody_trace_shape {α : Type} (cond : α → Bool) (rc : Bool)
    (restarts : Nat → Option (List (Tran α))) (resps : Nat → Response)
    (fuel : Nat)
    (hQ : ∀ (wrapped : Option (List (Tran α))) (rk ik : Nat)
      (sched : List Bool) (tr : List (Event α)),
      loopRun cond rc restarts resps fuel wrapped rk ik sched = some tr →
        checkedOf tr = receivedOf tr
        ∧ ∃ pre, tr = pre ++ cleanupEvents ∧
            ∀ e ∈ pre, e ≠ Event.closedTransactions ∧ e ≠ Event.closedClosedChan) :
    ∀ (p : List (Tran α)) (rk ik : Nat) (s : List Bool) (tr : List (Event α)),
    loopBody cond rc restarts resps fuel p rk ik s = some tr →
      checkedOf tr = receivedOf tr
      ∧ ∃ pre, tr = pre ++ cleanupEvents ∧
          ∀ e ∈ pre, e ≠ Event.closedTransactions ∧ e ≠ Event.closedClosedChan := by
  intro p rk ik s tr h
  simp only [loopBody] at h
  split at h
  · -- shutdown observed at the receive select
    obtain rfl := (Option.some.inj h).symm
    exact trace_shape_terminal [] rfl (by simp)
  · split at h
    · -- producer channel closed
      rw [Option.map_eq_some'] at h
      obtain ⟨t0, ht0, rfl⟩ := h
      exact trace_shape_extend [Event.inputClosed] t0 rfl (by simp)
        (hQ _ _ _ _ _ ht0)
    · rename_i tran rest
      split at h
      · -- condition false: plain forward
        split at h
        · -- shutdown observed at the forward select
          obtain rfl := (Option.some.inj h).symm
          exact trace_shape_terminal
            [Event.received tran.payload, Event.checked tran.payload] rfl
            (by simp)
        · rw [Option.map_eq_some'] at h
          obtain ⟨t0, ht0, rfl⟩ := h
          rw [List.append_cons]
          exact trace_shape_extend
            ([Event.received tran.payload, Event.checked tran.payload]
              ++ [Event.emitted tran.payload (ChanId.orig tran.ack)]) t0 rfl
            (by simp)
            (hQ _ _ _ _ _ ht0)
      · -- condition true: interception sequence
        split at h
        · obtain rfl := (Option.some.inj h).symm
          exact trace_shape_terminal
            [Event.received tran.payload, Event.checked tran.payload] rfl
            (by simp)
        · split at h
          · obtain rfl := (Option.some.inj h).symm
            exact trace_shape_terminal
              ([Event.received tran.payload, Event.checked tran.payload]
                ++ [Event.emitted tran.payload (ChanId.fresh ik)]) rfl
              (by simp)
          · split at h
            · obtain rfl := (Option.some.inj h).symm
              exact trace_shape_terminal
                ([Event.received tran.payload, Event.checked tran.payload]
                  ++ [Event.emitted tran.payload (ChanId.fresh ik)]) rfl
                (by simp)
            · split at h
              · -- accepted final response
                obtain rfl := (Option.some.inj h).symm
                exact trace_shape_terminal
                  ([Event.received tran.payload, Event.checked tran.payload]
                    ++ [Event.emitted tran.payload (ChanId.fresh ik)]
                    ++ [Event.responded (ChanId.orig tran.ack) (resps ik)]) rfl
                  (by simp)
              · -- rejected final response
                rw [Option.map_eq_some'] at h
                obtain ⟨t0, ht0, rfl⟩ := h
                exact trace_shape_extend
                  ([Event.received tran.payload, Event.checked tran.payload]
                    ++ [Event.emitted tran.payload (ChanId.fresh ik)]
                    ++ [Event.responded (ChanId.orig tran.ack) (resps ik)]) t0
                  rfl
                  (by simp)
                  (hQ _ _ _ _ _ ht0)

theorem loopRun_trace_shape {α : Type} (cond : α → Bool) (rc : Bool)
    (restarts : Nat → Option (List (Tran α))) (resps : Nat → Response) :
    ∀ (fuel : Nat) (wrapped : Option (List (Tran α))) (rk ik : Nat)
      (sched : List Bool) (tr : List (Event α)),
    loopRun cond rc restarts resps fuel wrapped rk ik sched = some tr →
      checkedOf tr = receivedOf tr
      ∧ ∃ pre, tr = pre ++ cleanupEvents ∧
          ∀ e ∈ pre, e ≠ Event.closedTransactions ∧ e ≠ Event.closedClosedChan := by
  intro fuel
  induction fuel with
  | zero => intro wrapped rk ik sched tr h; simp [loopRun] at h
  | succ fuel ih =>
    intro wrapped rk ik sched tr h
    simp only [loopRun] at h
    split at h
    · obtain rfl := (Option.some.inj h).symm
      exact trace_shape_terminal [] rfl (by simp)
    · split at h
      · split at h
        · split at h
          · -- restart construction failed
            obtain rfl := (Option.some.inj h).symm
            exact trace_shape_extend [Event.restartFail] cleanupEvents rfl
              (by simp) (trace_shape_terminal [] rfl (by simp))
          · -- restart construction succeeded
            rw [Option.map_eq_some'] at h
            obtain ⟨t0, ht0, rfl⟩ := h
            exact trace_shape_extend [Event.restartOk] t0 rfl (by simp)
              (loopBody_trace_shape cond rc restarts resps fuel ih _ _ _ _ _ ht0)
        · -- no restart: exit
          obtain rfl := (Option.some.inj h).symm
          exact trace_shape_terminal [] rfl (by simp)
      · exact loopBody_trace_shape cond rc restarts resps fuel ih _ _ _ _ _ h

/-! ## The claims -/

/-- C1: For every Transaction whose Payload the condition accepts, the
decorator builds a fresh single-use acknowledgement channel, forwards
the Payload downstream with that channel substituted, and on receiving a
Response with no error it forwards that Response verbatim to the
original Transaction's acknowledgement channel and then terminates: the
remainder of the trace is exactly the cleanup, so no further Transaction
is read from the producer or forwarded downstream after the accepted
final response. -/
theorem readUntil_C1 {α : Type} (cond : α → Bool)
    (restartConf : Bool) (restarts : Nat → Option (List (Tran α)))
    (resps : Nat → Response) (fuel rk ik : Nat) (tran : Tran α)
    (rest : List (Tran α))
    (hcond : cond tran.payload = true)
    (hok : (resps ik).err = none) :
    loopRun cond restartConf restarts resps (fuel + 1) (some (tran :: rest))
        rk ik []
      = some ([Event.received tran.payload, Event.checked tran.payload,
               Event.emitted tran.payload (ChanId.fresh ik),
               Event.responded (ChanId.orig tran.ack) (resps ik)]
              ++ cleanupEvents) :=
  loopRun_accept_step cond restartConf restarts resps fuel rk ik tran rest
    hcond hok

theorem readUntil_C1_witness :
    loopRun (fun p : Nat => p == 2) false (fun _ => none) (fun _ => ⟨none⟩) 3
        (some [⟨2, 5⟩, ⟨7, 6⟩]) 0 0 []
      = some ([Event.received 2, Event.checked 2,
               Event.emitted 2 (ChanId.fresh 0),
               Event.responded (ChanId.orig 5) ⟨none⟩] ++ cleanupEvents) :=
  readUntil_C1 (fun p => p == 2) false (fun _ => none) (fun _ => ⟨none⟩) 2 0 0
    ⟨2, 5⟩ [⟨7, 6⟩] (by decide) rfl

/-- C2: For every final-candidate Transaction whose intercepted Response
carries an error, the decorator forwards that error Response to the
original acknowledgement channel, does not terminate, does not itself
resend the rejected message (the prefix holds exactly one `emitted` for
it), and loops back to read the next Transaction from the same producer
instance (the continuation runs on `rest` with the same construction
index). -/
theorem readUntil_C2 {α : Type} (cond : α → Bool)
    (restartConf : Bool) (restarts : Nat → Option (List (Tran α)))
    (resps : Nat → Response) (fuel rk ik : Nat) (tran : Tran α)
    (rest : List (Tran α)) (e : String)
    (hcond : cond tran.payload = true)
    (herr : (resps ik).err = some e) :
    loopRun cond restartConf restarts resps (fuel + 1) (some (tran :: rest))
        rk ik []
      = Option.map
          (fun t => [Event.received tran.payload, Event.checked tran.payload,
               Event.emitted tran.payload (ChanId.fresh ik),
               Event.responded (ChanId.orig tran.ack) (resps ik)] ++ t)
          (loopRun cond restartConf restarts resps fuel (some rest)
            rk (ik + 1) []) :=
  loopRun_reject_step cond restartConf restarts resps fuel rk ik tran rest e
    hcond herr

theorem readUntil_C2_witness :
    loopRun (fun p : Nat => p == 2) false (fun _ => none)
        (fun _ => ⟨some "nack"⟩) 3 (some [⟨2, 5⟩, ⟨7, 6⟩]) 0 0 []
      = Option.map
          (fun t => [Event.received 2, Event.checked 2,
               Event.emitted 2 (ChanId.fresh 0),
               Event.responded (ChanId.orig 5) ⟨some "nack"⟩] ++ t)
          (loopRun (fun p : Nat => p == 2) false (fun _ => none)
            (fun _ => ⟨some "nack"⟩) 2 (some [⟨7, 6⟩]) 0 1 []) :=
  readUntil_C2 (fun p => p == 2) false (fun _ => none) (fun _ => ⟨some "nack"⟩)
    2 0 0 ⟨2, 5⟩ [⟨7, 6⟩] "nack" (by decide) rfl

/-- C3: Whenever the producer channel is observed closed and
`restart_input` is true, exactly one new producer is constructed from
the stored wrapped config; if that construction fails the loop goes
directly to its cleanup (Closed) without attempting any further restart
and without writing anything to an acknowledgement channel — in
contrast to construction time, where `NewReadUntil` returns the failure
as an error to the caller. -/
theorem readUntil_C3 {α γ : Type} (cond : α → Bool)
    (restarts : Nat → Option (List (Tran α))) (resps : Nat → Response)
    (n rk ik : Nat) (newInput : γ → Except String Unit)
    (newCond : Except String Unit) (c : γ) (e : String)
    (hfail : restarts rk = none) (hc : newInput c = Except.error e) :
    loopRun cond true restarts resps (n + 2) (some []) rk ik []
      = some [Event.inputClosed, Event.restartFail,
              Event.closedTransactions, Event.closedClosedChan]
    ∧ respondedOf [Event.inputClosed, Event.restartFail,
        Event.closedTransactions, (Event.closedClosedChan : Event α)] = []
    ∧ (∀ (rk2 : Nat) (p : List (Tran α)), restarts rk2 = some p →
        loopRun cond true restarts resps (n + 2) (some []) rk2 ik []
          = Option.map (fun tr => Event.inputClosed :: Event.restartOk :: tr)
              (loopRun cond true restarts resps (n + 1) (some p) (rk2 + 1)
                ik []))
    ∧ newReadUntil (some c) newInput newCond
        = Except.error ("failed to create input: " ++ e) := by
  refine ⟨?_, by simp [respondedOf], ?_, by simp [newReadUntil, hc]⟩
  · rw [show n + 2 = (n + 1) + 1 from rfl,
      loopRun_observe_closed cond true restarts resps (n + 1) rk ik,
      loopRun_restart_fail cond restarts resps n rk ik hfail]
    rfl
  · intro rk2 p hp
    rw [show n + 2 = (n + 1) + 1 from rfl,
      loopRun_observe_closed cond true restarts resps (n + 1) rk2 ik,
      loopRun_restart_ok cond restarts resps n rk2 ik p hp,
      Option.map_map]
    rfl

theorem readUntil_C3_witness :
    loopRun (fun p : Nat => p == 2) true (fun _ => none) (fun _ => ⟨none⟩) 4
        (some []) 0 0 []
      = some [Event.inputClosed, Event.restartFail,
              Event.closedTransactions, Event.closedClosedChan] :=
  (readUntil_C3 (fun p : Nat => p == 2) (fun _ => none) (fun _ => ⟨none⟩) 2 0 0
    (fun _ : Unit => Except.error "boom") (Except.ok ()) () "boom" rfl rfl).1

/-- C4: For a producer emitting a finite sequence of messages all
rejected by the condition, with `restart_input` false, the decorator
forwards every message unchanged and in order; once the producer channel
closes it closes its own output channel and signals the close
confirmation (the cleanup): no message is dropped and nothing extra is
emitted. -/
theorem readUntil_C4 {α : Type} (cond : α → Bool)
    (restarts : Nat → Option (List (Tran α))) (resps : Nat → Response)
    (msgs : List (Tran α)) (n rk ik : Nat)
    (h : ∀ t ∈ msgs, cond t.payload = false) :
    loopRun cond false restarts resps (msgs.length + (n + 2)) (some msgs)
        rk ik []
      = some (msgs.flatMap fwdEvents
              ++ Event.inputClosed :: cleanupEvents) := by
  have hskip := loopRun_skip_rejected cond false restarts resps msgs h
    (n + 2) rk ik []
  rw [List.append_nil] at hskip
  rw [hskip, loopRun_exhaust_stop]
  rfl

theorem readUntil_C4_witness :
    loopRun (fun _ : Nat => false) false (fun _ => none) (fun _ => ⟨none⟩) 5
        (some [⟨10, 0⟩, ⟨11, 1⟩, ⟨12, 2⟩]) 0 0 []
      = some ([⟨10, 0⟩, ⟨11, 1⟩, ⟨12, 2⟩].flatMap fwdEvents
              ++ Event.inputClosed :: cleanupEvents) :=
  readUntil_C4 (fun _ : Nat => false) (fun _ => none) (fun _ => ⟨none⟩)
    [⟨10, 0⟩, ⟨11, 1⟩, ⟨12, 2⟩] 0 0 0 (by decide)

/-- C5: For a sequence in which the condition is false on every message
before the k-th and true on the k-th, with the k-th acknowledged
downstream with success, the decorator emits exactly messages 1..k in
the exact order received and emits nothing after the accepted k-th
message: the trace forwards the prefix unchanged, forwards the k-th on a
fresh intercept channel, relays the success, and ends with the cleanup,
the messages after the k-th never appearing. -/
theorem readUntil_C5 {α : Type} (cond : α → Bool) (rc : Bool)
    (restarts : Nat → Option (List (Tran α))) (resps : Nat → Response)
    (pre post : List (Tran α)) (m : Tran α) (n rk ik : Nat)
    (hpre : ∀ t ∈ pre, cond t.payload = false)
    (hm : cond m.payload = true)
    (hok : (resps ik).err = none) :
    loopRun cond rc restarts resps (pre.length + (n + 1))
        (some (pre ++ m :: post)) rk ik []
      = some (pre.flatMap fwdEvents
              ++ ([Event.received m.payload, Event.checked m.payload,
                   Event.emitted m.payload (ChanId.fresh ik),
                   Event.responded (ChanId.orig m.ack) (resps ik)]
                  ++ cleanupEvents)) := by
  rw [loopRun_skip_rejected cond rc restarts resps pre hpre (n + 1) rk ik
      (m :: post),
    loopRun_accept_step cond rc restarts resps n rk ik m post hm hok]
  rfl

theorem readUntil_C5_witness :
    loopRun (fun p : Nat => p == 2) false (fun _ => none) (fun _ => ⟨none⟩) 4
        (some [⟨8, 0⟩, ⟨9, 1⟩, ⟨2, 2⟩, ⟨3, 3⟩]) 0 0 []
      = some ([⟨8, 0⟩, (⟨9, 1⟩ : Tran Nat)].flatMap fwdEvents
              ++ ([Event.received 2, Event.checked 2,
                   Event.emitted 2 (ChanId.fresh 0),
                   Event.responded (ChanId.orig 2) ⟨none⟩]
                  ++ cleanupEvents)) :=
  readUntil_C5 (fun p : Nat => p == 2) false (fun _ => none) (fun _ => ⟨none⟩)
    [⟨8, 0⟩, ⟨9, 1⟩] [⟨3, 3⟩] ⟨2, 2⟩ 1 0 0 (by decide) (by decide) rfl

/-- After a successful compare-and-swap, further `CloseAsync` calls are
no-ops: the state is unchanged and `closeChan` is not closed again. -/
theorem closeAsyncN_stopped (n : Nat) (c : Bool) :
    closeAsyncN n
        { running := 0, closeChanClosed := true, closedChanClosed := c }
      = ({ running := 0, closeChanClosed := true, closedChanClosed := c },
         0) := by
  induction n with
  | zero => rfl
  | succ n ih => simp [closeAsyncN, closeAsync, ih]

/-- C6: For any number `n ≥ 1` of calls to `CloseAsync` on a freshly
constructed decorator, only the first has effect: the running flag
transitions from 1 to 0 exactly once, and `closeChan` is closed exactly
once (the count of effective calls is 1); every subsequent call leaves
the state unchanged. -/
theorem readUntil_C6 (n : Nat) (hn : 1 ≤ n) :
    closeAsyncN n initLifecycle
      = ({ running := 0, closeChanClosed := true,
           closedChanClosed := false }, 1) := by
  obtain ⟨m, rfl⟩ : ∃ m, n = m + 1 := ⟨n - 1, by omega⟩
  simp [closeAsyncN, closeAsync, initLifecycle, closeAsyncN_stopped]

theorem readUntil_C6_witness :
    closeAsyncN 3 initLifecycle
      = ({ running := 0, closeChanClosed := true,
           closedChanClosed := false }, 1) :=
  readUntil_C6 3 (by decide)

/-- C7: `WaitForClose` leaves the decorator state unchanged (it never
triggers or advances shutdown), returns success exactly when the close
confirmation is signaled at or before the deadline, and returns
`types.ErrTimeout` exactly when the deadline elapses first. -/
theorem readUntil_C7 (s : LifecycleState) (b : Bool) :
    (waitForClose s b).1 = s
    ∧ ((waitForClose s b).2 = none
        ↔ (s.closedChanClosed = true ∨ b = true))
    ∧ ((waitForClose s b).2 = some BenthosErr.timeout
        ↔ ¬(s.closedChanClosed = true ∨ b = true)) := by
  cases hc : s.closedChanClosed <;> cases b <;> simp [waitForClose, hc]

/-- C8: In every terminating execution, whatever the schedule, the
condition is evaluated exactly once per Transaction received from the
wrapped producer and never on the synthetic intercepted Transaction: the
sequence of checked payloads equals the sequence of received payloads. -/
theorem readUntil_C8 {α : Type} (cond : α → Bool) (rc : Bool)
    (restarts : Nat → Option (List (Tran α))) (resps : Nat → Response)
    (fuel : Nat) (wrapped : Option (List (Tran α))) (rk ik : Nat)
    (sched : List Bool) (tr : List (Event α))
    (h : loopRun cond rc restarts resps fuel wrapped rk ik sched = some tr) :
    checkedOf tr = receivedOf tr :=
  (loopRun_trace_shape cond rc restarts resps fuel wrapped rk ik sched tr h).1

theorem readUntil_C8_witness :
    checkedOf [Event.received 7, Event.checked 7,
      Event.emitted 7 (ChanId.orig 0), Event.inputClosed,
      Event.closedTransactions, Event.closedClosedChan]
      = receivedOf [Event.received 7, Event.checked 7,
          Event.emitted 7 (ChanId.orig 0), Event.inputClosed,
          Event.closedTransactions, Event.closedClosedChan] :=
  readUntil_C8 (fun _ : Nat => false) false (fun _ => none) (fun _ => ⟨none⟩)
    3 (some [⟨7, 0⟩]) 0 0 [] _ (by simp [loopRun, loopBody, cleanupEvents])

/-- C9: Serialising a `ReadUntilConfig` replaces a nil wrapped-input
config with the empty object and omits the `restart_input` field
entirely (the dummy marshalling struct has no Restart field), so for
every configuration with `restart_input` true a marshal-then-unmarshal
round trip yields `restart_input` false: marshalling is not the inverse
of parsing for this field. -/
theorem readUntil_C9 (r : ReadUntilConfig) (hr : r.restart = true) :
    (marshalReadUntilConfig r).lookup "restart_input" = none
    ∧ (r.input = none →
        (marshalReadUntilConfig r).lookup "input" = some (Json.obj []))
    ∧ (unmarshalReadUntilConfig (marshalReadUntilConfig r)).restart = false
    ∧ (unmarshalReadUntilConfig (marshalReadUntilConfig r)).restart
        ≠ r.restart := by
  refine ⟨rfl, fun hi => ?_, rfl, ?_⟩
  · simp [marshalReadUntilConfig, hi, List.lookup]
  · rw [hr]
    simp [unmarshalReadUntilConfig, marshalReadUntilConfig, List.lookup]

theorem readUntil_C9_witness :
    (unmarshalReadUntilConfig (marshalReadUntilConfig
        { input := none, restart := true, condition := Json.obj [] })).restart
      = false :=
  (readUntil_C9 { input := none, restart := true, condition := Json.obj [] }
    rfl).2.2.1

/-- C10: On every exit path of the worker, whatever the schedule, the
cleanup closes the output transaction channel strictly before signaling
the close confirmation: every terminating trace ends with
`closedTransactions` immediately followed by `closedClosedChan`, and
neither event occurs anywhere earlier, so the confirmation is never
signaled while the output channel is still open. -/
theorem readUntil_C10 {α : Type} (cond : α → Bool) (rc : Bool)
    (restarts : Nat → Option (List (Tran α))) (resps : Nat → Response)
    (fuel : Nat) (wrapped : Option (List (Tran α))) (rk ik : Nat)
    (sched : List Bool) (tr : List (Event α))
    (h : loopRun cond rc restarts resps fuel wrapped rk ik sched = some tr) :
    ∃ pre, tr = pre ++ cleanupEvents
      ∧ ∀ e ∈ pre, e ≠ Event.closedTransactions
          ∧ e ≠ Event.closedClosedChan :=
  (loopRun_trace_shape cond rc restarts resps fuel wrapped rk ik sched tr h).2

theorem readUntil_C10_witness :
    ∃ pre,
      [Event.received 7, Event.checked 7, Event.emitted 7 (ChanId.orig 0),
        Event.inputClosed, Event.closedTransactions, Event.closedClosedChan]
        = pre ++ cleanupEvents
      ∧ ∀ e ∈ pre, e ≠ Event.closedTransactions
          ∧ e ≠ Event.closedClosedChan :=
  readUntil_C10 (fun _ : Nat => false) false (fun _ => none) (fun _ => ⟨none⟩)
    3 (some [⟨7, 0⟩]) 0 0 [] _ (by simp [loopRun, loopBody, cleanupEvents])
